import Mathlib

/-!
Verification development for the LinkedIn-Post-Generator repository.

The definitions below are a shallow embedding of the Python sources:
`src/filter/quality_filter.py` (class `QualityFilter`),
`src/filter/content_ranker.py` (class `ContentRanker`) and the item
selection step of `src/generator/post_generator.py`
(`PostGenerator.generate_news_post`).

Content items are Python dictionaries with optional fields; they are
modelled by the structure `Item` whose optional fields are `Option`s,
with the same defaults the Python code supplies via `dict.get`.
Python floats are modelled by real numbers, Python ints by `ℤ`/`ℕ`,
and Python strings by Lean `String`s.
-/

namespace LPG

/-! ### String helpers (Python `in`, `startswith`, `lower`) -/

/-- Decides whether the first list of characters is an initial segment of
the second (models Python `str.startswith` on exploded strings). -/
def isLeadOf : List Char → List Char → Bool
  | [], _ => true
  | _ :: _, [] => false
  | a :: as, b :: bs => a == b && isLeadOf as bs

/-- Decides whether the first list of characters occurs contiguously inside
the second (models Python `needle in hay`). -/
def hasSub : List Char → List Char → Bool
  | n, [] => n.isEmpty
  | n, c :: t => isLeadOf n (c :: t) || hasSub n t

/-- Python `needle in hay` on strings. -/
def containsStr (hay needle : String) : Bool :=
  hasSub needle.toList hay.toList

/-- Python `s.lower()` (ASCII-adequate). -/
def lowerStr (s : String) : String :=
  s.map Char.toLower

/-- Python `s.startswith(pre)`. -/
def startsWithStr (s pre : String) : Bool :=
  isLeadOf pre.toList s.toList

/-! ### Data model: a content item (Python dict) -/

/-- A content item as passed through the filter and ranker.  Optional
dictionary keys are `Option` fields; `published` is the publication
timestamp in seconds (already parsed, `none` when the key is missing or
falsy), `calculatedScore` is the `calculated_score` key the ranker
writes. -/
structure Item where
  title : Option String
  summary : Option String
  category : Option String
  source : Option String
  url : Option String
  engagementScore : Option ℤ
  published : Option ℝ
  calculatedScore : Option ℝ

/-! ### QualityFilter (src/filter/quality_filter.py) -/

/-- Models `QualityFilter.min_title_length` with the `.get(source, 15)` default. -/
def min_title_length (source : String) : ℕ :=
  if source = "ArXiv" then 20
  else if source = "HackerNews" then 15
  else if source = "Dev.to" then 20
  else if source = "Reddit" then 25
  else 15

/-- Models `QualityFilter.min_engagement` with the `.get(source, 10)` default. -/
def min_engagement (source : String) : ℤ :=
  if source = "ArXiv" then 0
  else if source = "HackerNews" then 20
  else if source = "Dev.to" then 10
  else if source = "Reddit" then 50
  else 10

/-- Models `QualityFilter.spam_keywords`, in source order. -/
def spam_keywords : List String :=
  ["click here", "buy now", "limited offer", "act fast",
   "amazing trick", "you won\x27t believe", "doctors hate",
   "this one weird", "shocking", "must see"]

/-- Models `QualityFilter.excluded_subreddits`. -/
def excluded_subreddits : List String :=
  ["memes", "funny", "pics", "aww", "me_irl",
   "gaming", "todayilearned", "showerthoughts"]

/-- Models `re.search(r'/r/([^/]+)', url)`: scans left to right for an
occurrence of `/r/` followed by at least one character other than `/`,
and returns the maximal such run. -/
def extractAfterRSlash : List Char → Option String
  | [] => none
  | c :: rest =>
    if c == '/' && isLeadOf ['r', '/'] rest then
      let seg := (rest.drop 2).takeWhile (fun ch => ch != '/')
      if seg.isEmpty then extractAfterRSlash rest else some (String.mk seg)
    else extractAfterRSlash rest

/-- The fixed sentinel reason returned on acceptance. -/
def passedSentinel : String := "Passed all quality checks"

/-- Models `QualityFilter.is_high_quality`: the sequential checks of the source,
returning `(accepted, reason)`. -/
def is_high_quality (item : Item) : Bool × String :=
  let source := item.source.getD ""
  let title := item.title.getD ""
  let summary := item.summary.getD ""
  let engagement := item.engagementScore.getD 0
  let url := item.url.getD ""
  let minLen := min_title_length source
  if title.length < minLen then
    (false, "Title too short (" ++ toString title.length ++ " < " ++ toString minLen ++ ")")
  else if summary.length < 50 then
    (false, "Summary too short or missing")
  else if source ≠ "ArXiv" ∧ engagement < min_engagement source then
    (false, "Low engagement (" ++ toString engagement ++ " < " ++
      toString (min_engagement source) ++ ")")
  else
    match spam_keywords.find? (fun kw => containsStr (lowerStr (title ++ " " ++ summary)) kw) with
    | some kw => (false, "Spam keyword detected: \x27" ++ kw ++ "\x27")
    | none =>
      if url = "" ∨ startsWithStr url "http" = false then
        (false, "Invalid or missing URL")
      else if source = "Reddit" then
        match extractAfterRSlash url.toList with
        | some sub =>
          if excluded_subreddits.contains (lowerStr sub) then
            (false, "Excluded subreddit: r/" ++ lowerStr sub)
          else if title.length < 30 ∧ summary.length < 100 then
            (false, "Reddit post lacks substance")
          else (true, passedSentinel)
        | none =>
          if title.length < 30 ∧ summary.length < 100 then
            (false, "Reddit post lacks substance")
          else (true, passedSentinel)
      else (true, passedSentinel)

/-- The loop body of `QualityFilter.filter_content`: appends each accepted
item to the accumulator, mirroring `filtered_items.append(item)`. -/
def filterLoop : List Item → List Item → List Item
  | acc, [] => acc
  | acc, i :: rest =>
    if (is_high_quality i).1 then filterLoop (acc ++ [i]) rest
    else filterLoop acc rest

/-- Models `QualityFilter.filter_content` (the returned `filtered_items`; the
`rejected_count` bookkeeping only feeds verbose printing). -/
def filter_content (items : List Item) : List Item :=
  filterLoop [] items

/-! ### ContentRanker (src/filter/content_ranker.py) -/

/-- Models `ContentRanker.relevance_keywords` as a partial map from category. -/
def relevance_keywords (category : String) : Option (List String) :=
  if category = "AI" then
    some ["ai", "artificial intelligence", "machine learning", "deep learning",
          "neural", "gpt", "llm", "transformer", "ml", "model"]
  else if category = "DevOps" then
    some ["devops", "kubernetes", "docker", "ci/cd", "jenkins", "automation",
          "deployment", "infrastructure", "containerization", "pipeline"]
  else if category = "Cloud" then
    some ["cloud", "aws", "azure", "gcp", "serverless", "microservices",
          "distributed", "scalability", "kubernetes"]
  else if category = "DataScience" then
    some ["data science", "analytics", "visualization", "big data",
          "statistics", "pandas", "numpy", "analysis"]
  else none

/-- Models `ContentRanker.weights` (the `self.weights` dict). -/
noncomputable def weights (k : String) : ℝ :=
  if k = "recency" then 0.4
  else if k = "engagement" then 0.3
  else if k = "relevance" then 0.3
  else 0

/-- The age-based case split of `calculate_recency_score`, as a function of
the age in hours. -/
noncomputable def recencyOfAge (ageHours : ℝ) : ℝ :=
  if ageHours ≤ 24 then 100
  else if ageHours ≤ 48 then 90
  else if ageHours ≤ 72 then 80
  else if ageHours ≤ 96 then 70
  else if ageHours ≤ 120 then 60
  else if ageHours ≤ 144 then 50
  else if ageHours ≤ 168 then 40
  else max 0 (40 * Real.exp (-((ageHours / 24 - 7) / 7)))

/-- Models `ContentRanker.calculate_recency_score`: `0` for a missing (or
unparseable) publication date, otherwise the age-based score, where the
age in hours is `(now - published).total_seconds() / 3600`. -/
noncomputable def calculate_recency_score (published : Option ℝ) (now : ℝ) : ℝ :=
  match published with
  | none => 0
  | some t => recencyOfAge ((now - t) / 3600)

/-- Models `ContentRanker.calculate_engagement_score` on the raw engagement
integer (Python falsy `0` and negatives both return `0`). -/
noncomputable def calculate_engagement_score (e : ℤ) : ℝ :=
  if e = 0 ∨ e < 0 then 0
  else if e < 10 then (e : ℝ) * 5
  else if e < 50 then 50 + ((e : ℝ) - 10) * 1.25
  else if e < 100 then 75 + ((e : ℝ) - 50) * 0.5
  else min 100 (90 + Real.logb 10 ((e : ℝ) - 99) * 10)

/-- The keyword-match count of `calculate_relevance_score` for a category
present in `relevance_keywords` (`sum(1 for keyword in keywords if keyword
in content_text)`). -/
def keywordMatches (kws : List String) (item : Item) : ℕ :=
  let contentText := lowerStr (item.title.getD "") ++ " " ++ lowerStr (item.summary.getD "")
  kws.countP (fun kw => containsStr contentText kw)

/-- Models `ContentRanker.calculate_relevance_score`: base 50, plus up to 50 for
keyword matches when the category is known, capped at 100. -/
noncomputable def calculate_relevance_score (item : Item) : ℝ :=
  let base : ℝ := 50
  match relevance_keywords (item.category.getD "") with
  | some kws => min 100 (base + min 50 ((keywordMatches kws item : ℝ) * 10))
  | none => min 100 base

/-- Python `round(x, 2)` modelled as rounding `x * 100` to an integer. -/
noncomputable def round2 (x : ℝ) : ℝ :=
  ((round (x * 100) : ℤ) : ℝ) / 100

/-- Models `ContentRanker.calculate_total_score`: the weighted sum of the three
sub-scores, rounded to two decimals. -/
noncomputable def calculate_total_score (now : ℝ) (item : Item) : ℝ :=
  round2 (calculate_recency_score item.published now * weights "recency"
    + calculate_engagement_score (item.engagementScore.getD 0) * weights "engagement"
    + calculate_relevance_score item * weights "relevance")

/-- The in-place write `item['calculated_score'] = ...` of `rank_content`. -/
noncomputable def addScore (now : ℝ) (item : Item) : Item :=
  { item with calculatedScore := some (calculate_total_score now item) }

/-- The sort key `x['calculated_score']` used by `rank_content`. -/
noncomputable def keyOf (item : Item) : ℝ :=
  item.calculatedScore.getD 0

/-- Stable descending insertion: the new item goes after every earlier item
with a strictly larger key and after earlier items with an equal key, as
Python's stable `sorted(..., reverse=True)` places it. -/
noncomputable def insertRanked (x : Item) : List Item → List Item
  | [] => [x]
  | y :: ys => if keyOf x < keyOf y then y :: insertRanked x ys else x :: y :: ys

/-- Stable descending sort by `calculated_score`, modelling
`sorted(content_items, key=lambda x: x['calculated_score'], reverse=True)`
(Python's sort is stable; stable sorts of the same list agree). -/
noncomputable def sortRanked : List Item → List Item
  | [] => []
  | x :: xs => insertRanked x (sortRanked xs)

/-- Models `ContentRanker.rank_content`: write the score onto every item, then
stable-sort descending by it. -/
noncomputable def rank_content (now : ℝ) (items : List Item) : List Item :=
  sortRanked (items.map (addScore now))

/-- Python list slicing `xs[:n]` for an integer `n` (negative `n` counts
from the end). -/
def pySliceTo (n : ℤ) (xs : List Item) : List Item :=
  if 0 ≤ n then xs.take n.toNat else xs.take ((xs.length : ℤ) + n).toNat

/-- Models `ContentRanker.get_top_items`: rank, then return `ranked[:n]`.  The
source performs no validation of `n`. -/
noncomputable def get_top_items (now : ℝ) (items : List Item) (n : ℤ) : List Item :=
  pySliceTo n (rank_content now items)

/-! ### Item selection (src/generator/post_generator.py, step 3/4) -/

/-- The selection step of `PostGenerator.generate_news_post`: among the top
five ranked items prefer the first whose source is `ArXiv`; otherwise take
the top-ranked item (`none` only on an empty list, where the Python code
would have bailed out earlier). -/
def choose_best (topItems : List Item) : Option Item :=
  match (topItems.take 5).filter (fun i => i.source == some "ArXiv") with
  | a :: _ => some a
  | [] => topItems.head?

/-! ### The quality checks as an ordered rule list (for the short-circuit
specification of `is_high_quality`) -/

/-- Check 1: title length. -/
def ruleTitle (item : Item) : Option String :=
  let title := item.title.getD ""
  let minLen := min_title_length (item.source.getD "")
  if title.length < minLen then
    some ("Title too short (" ++ toString title.length ++ " < " ++ toString minLen ++ ")")
  else none

/-- Check 2: meaningful summary. -/
def ruleSummary (item : Item) : Option String :=
  if (item.summary.getD "").length < 50 then some "Summary too short or missing" else none

/-- Check 3: engagement threshold, skipped for the research-paper source. -/
def ruleEngagement (item : Item) : Option String :=
  let source := item.source.getD ""
  let engagement := item.engagementScore.getD 0
  if source ≠ "ArXiv" ∧ engagement < min_engagement source then
    some ("Low engagement (" ++ toString engagement ++ " < " ++
      toString (min_engagement source) ++ ")")
  else none

/-- Check 4: spam keywords, in list order. -/
def ruleSpam (item : Item) : Option String :=
  let title := item.title.getD ""
  let summary := item.summary.getD ""
  match spam_keywords.find? (fun kw => containsStr (lowerStr (title ++ " " ++ summary)) kw) with
  | some kw => some ("Spam keyword detected: \x27" ++ kw ++ "\x27")
  | none => none

/-- Check 5: URL validity. -/
def ruleUrl (item : Item) : Option String :=
  let url := item.url.getD ""
  if url = "" ∨ startsWithStr url "http" = false then some "Invalid or missing URL" else none

/-- Check 6a: excluded subreddits (Reddit only). -/
def ruleRedditExcluded (item : Item) : Option String :=
  if item.source.getD "" = "Reddit" then
    match extractAfterRSlash (item.url.getD "").toList with
    | some sub =>
      if excluded_subreddits.contains (lowerStr sub) then
        some ("Excluded subreddit: r/" ++ lowerStr sub)
      else none
    | none => none
  else none

/-- Check 6b: substantial content (Reddit only). -/
def ruleRedditSubstance (item : Item) : Option String :=
  if item.source.getD "" = "Reddit" ∧ (item.title.getD "").length < 30 ∧
      (item.summary.getD "").length < 100 then
    some "Reddit post lacks substance"
  else none

/-- The checks of `is_high_quality` in their fixed source order. -/
def qualityRules : List (Item → Option String) :=
  [ruleTitle, ruleSummary, ruleEngagement, ruleSpam, ruleUrl,
   ruleRedditExcluded, ruleRedditSubstance]

/-- The earliest violated rule's description, if any. -/
def firstFailure (item : Item) : Option String :=
  qualityRules.findSome? (fun r => r item)

/-! ### The pipeline state after one filter-then-rank run (for idempotence) -/

/-- The state of the original input list after `filter_content` followed by
`rank_content`: `filter_content` does not touch the items, and
`rank_content` writes `calculated_score` onto exactly the items in the
filtered list, i.e. those the filter accepted. -/
noncomputable def afterRun (now : ℝ) (items : List Item) : List Item :=
  items.map (fun i => if (is_high_quality i).1 then addScore now i else i)

/-! ### Concrete items for counterexamples -/

/-- A concrete high-quality Dev.to item (from the repository's own test
fixture in `quality_filter.py`). -/
def devtoItem : Item :=
  { title := some "Kubernetes Best Practices for Production"
    summary := some "A comprehensive guide to deploying and managing Kubernetes clusters in production environments, covering security, monitoring, and scaling strategies."
    category := some "DevOps"
    source := some "Dev.to"
    url := some "https://dev.to/article/k8s-best-practices"
    engagementScore := some 45
    published := none
    calculatedScore := none }

/-! ## Helper lemmas -/

/-- The accumulator loop of `filter_content` computes `List.filter`. -/
theorem filterLoop_eq (l acc : List Item) :
    filterLoop acc l = acc ++ l.filter (fun i => (is_high_quality i).1) := by
  induction l generalizing acc with
  | nil => simp [filterLoop]
  | cons i rest ih =>
    unfold filterLoop
    by_cases h : (is_high_quality i).1
    · rw [if_pos h, ih, List.filter_cons, if_pos h]
      simp
    · rw [if_neg h, ih, List.filter_cons, if_neg h]

/-- Inserting with `insertRanked` is a permutation-preserving cons. -/
theorem insertRanked_perm (x : Item) (l : List Item) :
    (insertRanked x l).Perm (x :: l) := by
  induction l with
  | nil => exact List.Perm.refl _
  | cons y ys ih =>
    unfold insertRanked
    by_cases h : keyOf x < keyOf y
    · rw [if_pos h]
      exact (ih.cons y).trans (List.Perm.swap x y ys)
    · rw [if_neg h]

/-- Sorting with `sortRanked` permutes the input. -/
theorem sortRanked_perm (l : List Item) : (sortRanked l).Perm l := by
  induction l with
  | nil => exact List.Perm.refl _
  | cons x xs ih =>
    exact (insertRanked_perm x (sortRanked xs)).trans (ih.cons x)

/-- Inserting with `insertRanked` preserves descending sortedness by `keyOf`. -/
theorem insertRanked_sorted (x : Item) (l : List Item)
    (h : l.Pairwise (fun a b => keyOf b ≤ keyOf a)) :
    (insertRanked x l).Pairwise (fun a b => keyOf b ≤ keyOf a) := by
  induction l with
  | nil => simp [insertRanked]
  | cons y ys ih =>
    rw [List.pairwise_cons] at h
    unfold insertRanked
    by_cases hk : keyOf x < keyOf y
    · rw [if_pos hk, List.pairwise_cons]
      refine ⟨fun z hz => ?_, ih h.2⟩
      rcases List.mem_cons.mp ((insertRanked_perm x ys).mem_iff.mp hz) with hz' | hz'
      · exact hz' ▸ le_of_lt hk
      · exact h.1 z hz'
    · rw [if_neg hk, List.pairwise_cons]
      refine ⟨fun z hz => ?_, List.pairwise_cons.mpr h⟩
      rcases List.mem_cons.mp hz with hz' | hz'
      · exact hz' ▸ not_lt.mp hk
      · exact le_trans (h.1 z hz') (not_lt.mp hk)

/-- The `sortRanked` output is descending in `keyOf`. -/
theorem sortRanked_sorted (l : List Item) :
    (sortRanked l).Pairwise (fun a b => keyOf b ≤ keyOf a) := by
  induction l with
  | nil => simp [sortRanked]
  | cons x xs ih => exact insertRanked_sorted x (sortRanked xs) ih

/-- Inserting an item whose key is `s` prepends it to the `s`-keyed
subsequence: every item skipped over has a strictly larger key. -/
theorem insertRanked_filter_of_eq (x : Item) (l : List Item) (s : ℝ)
    (hx : keyOf x = s) :
    (insertRanked x l).filter (fun i => decide (keyOf i = s)) =
      x :: l.filter (fun i => decide (keyOf i = s)) := by
  induction l with
  | nil => simp [insertRanked, hx]
  | cons y ys ih =>
    unfold insertRanked
    by_cases hk : keyOf x < keyOf y
    · rw [if_pos hk]
      have hy : ¬ (keyOf y = s) := by
        rw [← hx]; exact (ne_of_gt hk)
      rw [List.filter_cons, List.filter_cons]
      simp [hy, ih]
    · rw [if_neg hk, List.filter_cons]
      simp [hx]

/-- Inserting an item whose key is not `s` leaves the `s`-keyed
subsequence unchanged. -/
theorem insertRanked_filter_of_ne (x : Item) (l : List Item) (s : ℝ)
    (hx : ¬ (keyOf x = s)) :
    (insertRanked x l).filter (fun i => decide (keyOf i = s)) =
      l.filter (fun i => decide (keyOf i = s)) := by
  induction l with
  | nil => simp [insertRanked, hx]
  | cons y ys ih =>
    unfold insertRanked
    by_cases hk : keyOf x < keyOf y
    · rw [if_pos hk]
      rw [List.filter_cons, List.filter_cons]
      by_cases hy : keyOf y = s
      · simp [hy, ih]
      · simp [hy, ih]
    · rw [if_neg hk, List.filter_cons]
      simp [hx]

/-- Stability of `sortRanked`: each equal-key subsequence is preserved. -/
theorem sortRanked_filter (l : List Item) (s : ℝ) :
    (sortRanked l).filter (fun i => decide (keyOf i = s)) =
      l.filter (fun i => decide (keyOf i = s)) := by
  induction l with
  | nil => rfl
  | cons x xs ih =>
    show (insertRanked x (sortRanked xs)).filter _ = _
    by_cases hx : keyOf x = s
    · rw [insertRanked_filter_of_eq x (sortRanked xs) s hx, ih, List.filter_cons]
      simp [hx]
    · rw [insertRanked_filter_of_ne x (sortRanked xs) s hx, ih, List.filter_cons]
      simp [hx]

/-- The head of a filtered list is the first match. -/
theorem head?_filter_eq (q : Item → Bool) (l : List Item) :
    (l.filter q).head? = l.find? q := by
  induction l with
  | nil => rfl
  | cons a t ih =>
    by_cases h : q a
    · simp [List.filter_cons, List.find?_cons, h]
    · simp [List.filter_cons, List.find?_cons, h, ih]

/-! ## Claim theorems (part 1) -/

/-- C8: for every input list, including items with absent `summary`, `url`
or `engagement_score` (treated as empty string / zero), `filter_content`
returns, as a total function, exactly the items accepted by
`is_high_quality`, preserving their original relative order. -/
theorem filter_content_safe (items : List Item) :
    filter_content items = items.filter (fun i => (is_high_quality i).1) ∧
    ∀ item : Item,
      is_high_quality { item with summary := none, url := none, engagementScore := none } =
        is_high_quality { item with
          summary := some ""
          url := some ""
          engagementScore := some 0 } := by
  refine ⟨?_, fun item => rfl⟩
  simpa using filterLoop_eq items []

/-- C6: `rank_content` returns a permutation of the (score-annotated) input,
sorted in descending order of composite score, and stably: each class of
items with a common score keeps its original relative order. -/
theorem rank_content_stable_sort (now : ℝ) (items : List Item) :
    (rank_content now items).Perm (items.map (addScore now)) ∧
    (rank_content now items).Pairwise (fun a b => keyOf b ≤ keyOf a) ∧
    ∀ s : ℝ, (rank_content now items).filter (fun i => decide (keyOf i = s)) =
      (items.map (addScore now)).filter (fun i => decide (keyOf i = s)) :=
  ⟨sortRanked_perm _, sortRanked_sorted _, fun s => sortRanked_filter _ s⟩

/-- C7: the selection step of `generate_news_post` picks the first
ArXiv-sourced item of the top five in ranked order when one exists, and
the top-ranked item otherwise. -/
theorem choose_best_policy (topItems : List Item) :
    choose_best topItems =
      match (topItems.take 5).find? (fun i => i.source == some "ArXiv") with
      | some a => some a
      | none => topItems.head? := by
  unfold choose_best
  rw [← head?_filter_eq]
  cases hfl : (topItems.take 5).filter (fun i => i.source == some "ArXiv") with
  | nil => simp
  | cons a rest => simp

/-- C9: running `filter_content` then `rank_content` a second time, on the
input list as the first run left it (scores written onto exactly the
accepted items), yields the same output list — and hence the same
composite scores — as the first run: the hidden mutation does not change
a second run's result. -/
theorem pipeline_idempotent (now : ℝ) (items : List Item) :
    rank_content now (filter_content (afterRun now items)) =
      rank_content now (filter_content items) ∧
    (rank_content now (filter_content (afterRun now items))).map keyOf =
      (rank_content now (filter_content items)).map keyOf := by
  have hacc : ∀ i : Item, is_high_quality (addScore now i) = is_high_quality i :=
    fun i => rfl
  have hidem : ∀ i : Item, addScore now (addScore now i) = addScore now i :=
    fun i => rfl
  have hfil : filter_content (afterRun now items) =
      (items.filter (fun i => (is_high_quality i).1)).map
        (fun i => if (is_high_quality i).1 then addScore now i else i) := by
    rw [(filter_content_safe _).1]
    unfold afterRun
    rw [List.filter_map]
    congr 1
    apply List.filter_congr
    intro i _
    by_cases h : (is_high_quality i).1
    · simp [h, hacc]
    · simp [h]
  have hmain : rank_content now (filter_content (afterRun now items)) =
      rank_content now (filter_content items) := by
    rw [hfil, (filter_content_safe _).1]
    unfold rank_content
    rw [List.map_map]
    congr 1
    apply List.map_congr_left
    intro i hi
    have hq : (is_high_quality i).1 = true := (List.mem_filter.mp hi).2
    simp only [Function.comp_apply, if_pos hq]
    exact hidem i
  exact ⟨hmain, by rw [hmain]⟩

/-- C4 counterexample: `get_top_items` called with `n = 0` on a nonempty
list of items silently returns the empty list — it does not report a
configuration error to the caller. -/
theorem get_top_items_zero_counterexample :
    get_top_items 0 [devtoItem] 0 = [] := rfl

/-- C4 (amended): `get_top_items` performs no validation of `n`: for
`n = 0` it silently returns the empty list, and for negative `n` it
returns the Python slice `ranked[:n]`, of length `length + n` clamped
at zero. -/
theorem get_top_items_no_validation (now : ℝ) (items : List Item) :
    get_top_items now items 0 = [] ∧
    ∀ n : ℤ, n < 0 →
      (get_top_items now items n).length = ((items.length : ℤ) + n).toNat := by
  constructor
  · unfold get_top_items pySliceTo
    simp
  · intro n hn
    unfold get_top_items pySliceTo
    rw [if_neg (by omega)]
    have hlen : (rank_content now items).length = items.length := by
      unfold rank_content
      rw [(sortRanked_perm _).length_eq, List.length_map]
    rw [List.length_take, hlen]
    omega

/-- Witness for the amended C4 at a concrete negative `n`. -/
theorem get_top_items_no_validation_witness :
    ((-1 : ℤ) < 0) ∧
    (get_top_items 0 [devtoItem] (-1)).length = (([devtoItem].length : ℤ) + (-1)).toNat :=
  ⟨by norm_num, (get_top_items_no_validation 0 [devtoItem]).2 (-1) (by norm_num)⟩

/-! ## Sub-score bounds and the composite score (C1) -/

/-- The age-based recency score always lies in `[0, 100]`. -/
theorem recencyOfAge_bounds (a : ℝ) : 0 ≤ recencyOfAge a ∧ recencyOfAge a ≤ 100 := by
  unfold recencyOfAge
  split_ifs with h1 h2 h3 h4 h5 h6 h7
  · norm_num
  · norm_num
  · norm_num
  · norm_num
  · norm_num
  · norm_num
  · norm_num
  · constructor
    · exact le_max_left 0 _
    · apply max_le (by norm_num)
      have h168 : (168:ℝ) < a := not_le.mp h7
      have hexp : Real.exp (-((a / 24 - 7) / 7)) ≤ 1 := by
        rw [Real.exp_le_one_iff]
        linarith
      nlinarith [hexp]

/-- The recency sub-score always lies in `[0, 100]`. -/
theorem calculate_recency_bounds (pd : Option ℝ) (now : ℝ) :
    0 ≤ calculate_recency_score pd now ∧ calculate_recency_score pd now ≤ 100 := by
  cases pd with
  | none => simp [calculate_recency_score]
  | some t => exact recencyOfAge_bounds _

/-- The engagement sub-score always lies in `[0, 100]`. -/
theorem engagement_bounds (e : ℤ) :
    0 ≤ calculate_engagement_score e ∧ calculate_engagement_score e ≤ 100 := by
  unfold calculate_engagement_score
  split_ifs with h1 h2 h3 h4
  · norm_num
  · have he1 : (1:ℝ) ≤ (e:ℝ) := by exact_mod_cast (by omega : (1:ℤ) ≤ e)
    have he9 : (e:ℝ) ≤ 9 := by exact_mod_cast (by omega : e ≤ (9:ℤ))
    constructor <;> nlinarith
  · have h10 : (10:ℝ) ≤ (e:ℝ) := by exact_mod_cast (by omega : (10:ℤ) ≤ e)
    have h49 : (e:ℝ) ≤ 49 := by exact_mod_cast (by omega : e ≤ (49:ℤ))
    constructor <;> nlinarith
  · have h50 : (50:ℝ) ≤ (e:ℝ) := by exact_mod_cast (by omega : (50:ℤ) ≤ e)
    have h99 : (e:ℝ) ≤ 99 := by exact_mod_cast (by omega : e ≤ (99:ℤ))
    constructor <;> nlinarith
  · constructor
    · apply le_min (by norm_num)
      have h100 : (100:ℝ) ≤ (e:ℝ) := by exact_mod_cast (by omega : (100:ℤ) ≤ e)
      have hlb : (0:ℝ) ≤ Real.logb 10 ((e:ℝ) - 99) :=
        Real.logb_nonneg (by norm_num) (by linarith)
      linarith
    · exact min_le_left _ _

/-- The relevance sub-score always lies in `[0, 100]`. -/
theorem relevance_bounds (item : Item) :
    0 ≤ calculate_relevance_score item ∧ calculate_relevance_score item ≤ 100 := by
  unfold calculate_relevance_score
  cases h : relevance_keywords (item.category.getD "") with
  | some kws =>
    simp only [h]
    have hm : (0:ℝ) ≤ min 50 ((keywordMatches kws item : ℝ) * 10) :=
      le_min (by norm_num) (by positivity)
    exact ⟨le_min (by norm_num) (by linarith), min_le_left _ _⟩
  | none =>
    simp only [h]
    constructor <;> norm_num

/-- Rounding to two decimals keeps a value of `[0, 100]` inside `[0, 100]`. -/
theorem round2_bounds (x : ℝ) (h0 : 0 ≤ x) (h1 : x ≤ 100) :
    0 ≤ round2 x ∧ round2 x ≤ 100 := by
  unfold round2
  constructor
  · have h : x * 100 - 1 / 2 < (round (x * 100) : ℝ) := sub_half_lt_round _
    have hx : (0:ℝ) ≤ x * 100 := by nlinarith
    have hcast : (-1 : ℝ) < (round (x * 100) : ℝ) := by linarith
    have hz : (0:ℤ) ≤ round (x * 100) := by
      have : (-1 : ℤ) < round (x * 100) := by exact_mod_cast hcast
      omega
    apply div_nonneg _ (by norm_num)
    exact_mod_cast hz
  · have h : (round (x * 100) : ℝ) ≤ x * 100 + 1 / 2 := round_le_add_half _
    have hx : x * 100 ≤ 10000 := by nlinarith
    have hcast : (round (x * 100) : ℝ) < 10001 := by linarith
    have hz : round (x * 100) ≤ (10000:ℤ) := by
      have : round (x * 100) < (10001:ℤ) := by exact_mod_cast hcast
      omega
    rw [div_le_iff₀ (by norm_num : (0:ℝ) < 100)]
    calc (round (x * 100) : ℝ) ≤ (10000:ℝ) := by exact_mod_cast hz
      _ ≤ 100 * 100 := by norm_num

/-- C1: the composite score is `0.4 * recency + 0.3 * engagement +
0.3 * relevance`, rounded to two decimals, and always lies in `[0, 100]`. -/
theorem total_score_weighted_and_bounded (now : ℝ) (item : Item) :
    calculate_total_score now item =
      round2 (0.4 * calculate_recency_score item.published now +
        0.3 * calculate_engagement_score (item.engagementScore.getD 0) +
        0.3 * calculate_relevance_score item) ∧
    0 ≤ calculate_total_score now item ∧ calculate_total_score now item ≤ 100 := by
  have hw1 : weights "recency" = 0.4 := by unfold weights; rw [if_pos rfl]
  have hw2 : weights "engagement" = 0.3 := by
    unfold weights; rw [if_neg (by decide), if_pos rfl]
  have hw3 : weights "relevance" = 0.3 := by
    unfold weights; rw [if_neg (by decide), if_neg (by decide), if_pos rfl]
  have heq : calculate_total_score now item =
      round2 (0.4 * calculate_recency_score item.published now +
        0.3 * calculate_engagement_score (item.engagementScore.getD 0) +
        0.3 * calculate_relevance_score item) := by
    unfold calculate_total_score
    rw [hw1, hw2, hw3]
    congr 1
    ring
  obtain ⟨r0, r100⟩ := calculate_recency_bounds item.published now
  obtain ⟨e0, e100⟩ := engagement_bounds (item.engagementScore.getD 0)
  obtain ⟨v0, v100⟩ := relevance_bounds item
  have hb := round2_bounds (0.4 * calculate_recency_score item.published now +
      0.3 * calculate_engagement_score (item.engagementScore.getD 0) +
      0.3 * calculate_relevance_score item) (by linarith) (by linarith)
  exact ⟨heq, heq ▸ hb.1, heq ▸ hb.2⟩

/-! ## Recency piecewise behaviour (C2) -/

/-- Evaluation of the recency score at age 169 hours: the code computes
`40 * exp(-((169/24 - 7)/7)) = 40 * exp(-1/168)`. -/
theorem recencyOfAge_eval_169 : recencyOfAge 169 = 40 * Real.exp (-(1 / 168)) := by
  unfold recencyOfAge
  rw [if_neg (by norm_num), if_neg (by norm_num), if_neg (by norm_num),
    if_neg (by norm_num), if_neg (by norm_num), if_neg (by norm_num),
    if_neg (by norm_num)]
  rw [show -(((169:ℝ) / 24 - 7) / 7) = -(1 / 168) by norm_num]
  exact max_eq_right (by positivity)

/-- C2 (amended): the recency sub-score as a function of age in hours is
the documented step function, with exponential decay past 168 hours; the
boundary values are `age = 24h → 100`, `age = 24h + 1s → 90`,
`age = 168h → 40`, and `age = 169h → 40 * exp(-1/168)` (≈ 39.76, not
`40 * exp(-1/7)`); a missing publication date scores 0. -/
theorem recency_score_piecewise :
    (∀ now : ℝ, calculate_recency_score none now = 0) ∧
    (∀ t now : ℝ, calculate_recency_score (some t) now = recencyOfAge ((now - t) / 3600)) ∧
    (∀ a : ℝ, a ≤ 24 → recencyOfAge a = 100) ∧
    (∀ a : ℝ, 24 < a → a ≤ 48 → recencyOfAge a = 90) ∧
    (∀ a : ℝ, 48 < a → a ≤ 72 → recencyOfAge a = 80) ∧
    (∀ a : ℝ, 72 < a → a ≤ 96 → recencyOfAge a = 70) ∧
    (∀ a : ℝ, 96 < a → a ≤ 120 → recencyOfAge a = 60) ∧
    (∀ a : ℝ, 120 < a → a ≤ 144 → recencyOfAge a = 50) ∧
    (∀ a : ℝ, 144 < a → a ≤ 168 → recencyOfAge a = 40) ∧
    (∀ a : ℝ, 168 < a → recencyOfAge a = max 0 (40 * Real.exp (-((a / 24 - 7) / 7)))) ∧
    recencyOfAge 24 = 100 ∧
    recencyOfAge (24 + 1 / 3600) = 90 ∧
    recencyOfAge 168 = 40 ∧
    recencyOfAge 169 = 40 * Real.exp (-(1 / 168)) := by
  refine ⟨fun now => rfl, fun t now => rfl, ?_, ?_, ?_, ?_, ?_, ?_, ?_, ?_, ?_, ?_, ?_,
    recencyOfAge_eval_169⟩
  · intro a h
    unfold recencyOfAge
    rw [if_pos h]
  · intro a h1 h2
    unfold recencyOfAge
    rw [if_neg (not_le.mpr h1), if_pos h2]
  · intro a h1 h2
    unfold recencyOfAge
    rw [if_neg (by linarith), if_neg (not_le.mpr h1), if_pos h2]
  · intro a h1 h2
    unfold recencyOfAge
    rw [if_neg (by linarith), if_neg (by linarith), if_neg (not_le.mpr h1), if_pos h2]
  · intro a h1 h2
    unfold recencyOfAge
    rw [if_neg (by linarith), if_neg (by linarith), if_neg (by linarith),
      if_neg (not_le.mpr h1), if_pos h2]
  · intro a h1 h2
    unfold recencyOfAge
    rw [if_neg (by linarith), if_neg (by linarith), if_neg (by linarith),
      if_neg (by linarith), if_neg (not_le.mpr h1), if_pos h2]
  · intro a h1 h2
    unfold recencyOfAge
    rw [if_neg (by linarith), if_neg (by linarith), if_neg (by linarith),
      if_neg (by linarith), if_neg (by linarith), if_neg (not_le.mpr h1), if_pos h2]
  · intro a h1
    unfold recencyOfAge
    rw [if_neg (by linarith), if_neg (by linarith), if_neg (by linarith),
      if_neg (by linarith), if_neg (by linarith), if_neg (by linarith),
      if_neg (not_le.mpr h1)]
  · unfold recencyOfAge
    rw [if_pos (by norm_num)]
  · unfold recencyOfAge
    rw [if_neg (by norm_num), if_pos (by norm_num)]
  · unfold recencyOfAge
    rw [if_neg (by norm_num), if_neg (by norm_num), if_neg (by norm_num),
      if_neg (by norm_num), if_neg (by norm_num), if_neg (by norm_num),
      if_pos (by norm_num)]

/-- Witness for C2 at a concrete age inside the first band. -/
theorem recency_score_piecewise_witness :
    (10:ℝ) ≤ 24 ∧ recencyOfAge 10 = 100 :=
  ⟨by norm_num, recency_score_piecewise.2.2.1 10 (by norm_num)⟩

/-- C2 counterexample: at age 169 hours (published at time 0, now
`169 * 3600` seconds) the code does not return `40 * exp(-1/7)` (≈ 34.66)
as the spec states — it returns `40 * exp(-1/168)` (≈ 39.76), because the
decay exponent uses the age in days, `169/24 - 7 = 1/24`, divided by 7. -/
theorem recency_score_169_counterexample :
    calculate_recency_score (some 0) (169 * 3600) ≠ 40 * Real.exp (-(1 / 7)) := by
  have hval : calculate_recency_score (some 0) (169 * 3600) =
      40 * Real.exp (-(1 / 168)) := by
    show recencyOfAge ((169 * 3600 - 0) / 3600) = _
    rw [show ((169 * 3600 - 0 : ℝ)) / 3600 = 169 by norm_num]
    exact recencyOfAge_eval_169
  rw [hval]
  intro h
  have h40 := mul_left_cancel₀ (by norm_num : (40:ℝ) ≠ 0) h
  rw [Real.exp_eq_exp] at h40
  norm_num at h40

/-! ## Engagement piecewise behaviour (C3, C10) -/

/-- Evaluation fact `log₁₀ 100 = 2`. -/
theorem logb_ten_hundred : Real.logb 10 100 = 2 := by
  rw [show (100:ℝ) = 10 ^ (2:ℕ) by norm_num, Real.logb_pow,
    Real.logb_self_eq_one (by norm_num)]
  norm_num

/-- Bound `log₁₀ 9 > 19/20`, because `10^19 < 9^20`. -/
theorem logb_ten_nine_gt : (19 / 20 : ℝ) < Real.logb 10 9 := by
  have hl10 : (0:ℝ) < Real.log 10 := Real.log_pos (by norm_num)
  rw [Real.logb, lt_div_iff₀ hl10]
  have h9 : Real.log ((10:ℝ) ^ (19:ℕ)) < Real.log ((9:ℝ) ^ (20:ℕ)) := by
    apply Real.log_lt_log (by positivity)
    norm_num
  rw [Real.log_pow, Real.log_pow] at h9
  push_cast at h9
  linarith

/-- Bound `log₁₀ 8 < 19/20`, because `8^20 < 10^19`. -/
theorem logb_ten_eight_lt : Real.logb 10 8 < (19 / 20 : ℝ) := by
  have hl10 : (0:ℝ) < Real.log 10 := Real.log_pos (by norm_num)
  rw [Real.logb, div_lt_iff₀ hl10]
  have h8 : Real.log ((8:ℝ) ^ (20:ℕ)) < Real.log ((10:ℝ) ^ (19:ℕ)) := by
    apply Real.log_lt_log (by positivity)
    norm_num
  rw [Real.log_pow, Real.log_pow] at h8
  push_cast at h8
  linarith

/-- C3: the engagement sub-score is the documented piecewise function of
the raw engagement, with the documented boundary values (`0 → 0`,
`9 → 45`, `10 → 50`, `49 → 98.75`, `50 → 75`, `99 → 99.5`, `199 → 100`),
and negative or absent engagement scores 0. -/
theorem engagement_score_piecewise :
    (∀ e : ℤ, e < 0 → calculate_engagement_score e = 0) ∧
    calculate_engagement_score 0 = 0 ∧
    calculate_engagement_score 9 = 45 ∧
    calculate_engagement_score 10 = 50 ∧
    calculate_engagement_score 49 = 98.75 ∧
    calculate_engagement_score 50 = 75 ∧
    calculate_engagement_score 99 = 99.5 ∧
    calculate_engagement_score 199 = 100 ∧
    (∀ e : ℤ, 0 < e → e < 10 → calculate_engagement_score e = (e:ℝ) * 5) ∧
    (∀ e : ℤ, 10 ≤ e → e < 50 →
      calculate_engagement_score e = 50 + ((e:ℝ) - 10) * 1.25) ∧
    (∀ e : ℤ, 50 ≤ e → e < 100 →
      calculate_engagement_score e = 75 + ((e:ℝ) - 50) * 0.5) ∧
    (∀ e : ℤ, 100 ≤ e → calculate_engagement_score e =
      min 100 (90 + Real.logb 10 ((e:ℝ) - 99) * 10)) := by
  refine ⟨?_, ?_, ?_, ?_, ?_, ?_, ?_, ?_, ?_, ?_, ?_, ?_⟩
  · intro e h
    unfold calculate_engagement_score
    rw [if_pos (Or.inr h)]
  · unfold calculate_engagement_score
    rw [if_pos (Or.inl rfl)]
  · unfold calculate_engagement_score
    rw [if_neg (by decide), if_pos (by decide)]
    norm_num
  · unfold calculate_engagement_score
    rw [if_neg (by decide), if_neg (by decide), if_pos (by decide)]
    norm_num
  · unfold calculate_engagement_score
    rw [if_neg (by decide), if_neg (by decide), if_pos (by decide)]
    norm_num
  · unfold calculate_engagement_score
    rw [if_neg (by decide), if_neg (by decide), if_neg (by decide), if_pos (by decide)]
    norm_num
  · unfold calculate_engagement_score
    rw [if_neg (by decide), if_neg (by decide), if_neg (by decide), if_pos (by decide)]
    norm_num
  · unfold calculate_engagement_score
    rw [if_neg (by decide), if_neg (by decide), if_neg (by decide), if_neg (by decide)]
    rw [show ((199:ℤ):ℝ) - 99 = 100 by norm_num, logb_ten_hundred]
    rw [show (90:ℝ) + 2 * 10 = 110 by norm_num]
    exact min_eq_left (by norm_num)
  · intro e h1 h2
    unfold calculate_engagement_score
    rw [if_neg (by omega), if_pos h2]
  · intro e h1 h2
    unfold calculate_engagement_score
    rw [if_neg (by omega), if_neg (by omega), if_pos h2]
  · intro e h1 h2
    unfold calculate_engagement_score
    rw [if_neg (by omega), if_neg (by omega), if_neg (by omega), if_pos h2]
  · intro e h1
    unfold calculate_engagement_score
    rw [if_neg (by omega), if_neg (by omega), if_neg (by omega), if_neg (by omega)]

/-- Witness for C3 at a concrete negative engagement. -/
theorem engagement_score_piecewise_witness :
    (-5 : ℤ) < 0 ∧ calculate_engagement_score (-5) = 0 :=
  ⟨by norm_num, engagement_score_piecewise.1 (-5) (by norm_num)⟩

/-- C10 counterexample: at engagement 108 the sub-score is
`90 + log₁₀(9) * 10 > 99.5`, so the claimed bound `< 99.5` fails inside
the range `[100, 109]`. -/
theorem engagement_108_counterexample :
    ¬ (calculate_engagement_score 108 < 99.5) := by
  have hval : calculate_engagement_score 108 = 90 + Real.logb 10 9 * 10 := by
    unfold calculate_engagement_score
    rw [if_neg (by decide), if_neg (by decide), if_neg (by decide), if_neg (by decide)]
    rw [show ((108:ℤ):ℝ) - 99 = 9 by norm_num]
    have h1 : Real.logb 10 9 < 1 := by
      calc Real.logb 10 9 < Real.logb 10 10 :=
            Real.logb_lt_logb (by norm_num) (by norm_num) (by norm_num)
        _ = 1 := Real.logb_self_eq_one (by norm_num)
    exact min_eq_right (by linarith)
  rw [hval, not_lt]
  have h9 := logb_ten_nine_gt
  linarith

/-- C10 (amended): the engagement sub-score is not monotone — engagement
100 scores 90, strictly below the 99.5 of engagement 99 — and on
`[100, 109]` it equals `90 + log₁₀(e - 99) * 10`, which stays below 99.5
only for `e ≤ 107` (at `e = 108` it already exceeds 99.5). -/
theorem engagement_nonmonotone :
    calculate_engagement_score 100 < calculate_engagement_score 99 ∧
    (∀ e : ℤ, 100 ≤ e → e ≤ 109 → calculate_engagement_score e =
      90 + Real.logb 10 ((e:ℝ) - 99) * 10) ∧
    (∀ e : ℤ, 100 ≤ e → e ≤ 107 → calculate_engagement_score e < 99.5) := by
  have hgen : ∀ e : ℤ, 100 ≤ e → e ≤ 109 → calculate_engagement_score e =
      90 + Real.logb 10 ((e:ℝ) - 99) * 10 := by
    intro e h1 h2
    unfold calculate_engagement_score
    rw [if_neg (by omega), if_neg (by omega), if_neg (by omega), if_neg (by omega)]
    apply min_eq_right
    have hc1 : (100:ℝ) ≤ (e:ℝ) := by exact_mod_cast h1
    have hc2 : (e:ℝ) ≤ 109 := by exact_mod_cast h2
    have hlb : Real.logb 10 ((e:ℝ) - 99) ≤ 1 := by
      calc Real.logb 10 ((e:ℝ) - 99) ≤ Real.logb 10 10 :=
            Real.logb_le_logb_of_le (by norm_num) (by linarith) (by linarith)
        _ = 1 := Real.logb_self_eq_one (by norm_num)
    linarith
  refine ⟨?_, hgen, ?_⟩
  · have hA : calculate_engagement_score 100 = 90 := by
      rw [hgen 100 (by norm_num) (by norm_num)]
      rw [show ((100:ℤ):ℝ) - 99 = 1 by norm_num, Real.logb_one]
      norm_num
    have hB : calculate_engagement_score 99 = 99.5 := by
      unfold calculate_engagement_score
      rw [if_neg (by decide), if_neg (by decide), if_neg (by decide), if_pos (by decide)]
      norm_num
    rw [hA, hB]
    norm_num
  · intro e h1 h2
    rw [hgen e h1 (by omega)]
    have hc1 : (100:ℝ) ≤ (e:ℝ) := by exact_mod_cast h1
    have hc2 : (e:ℝ) ≤ 107 := by exact_mod_cast h2
    have hmono : Real.logb 10 ((e:ℝ) - 99) ≤ Real.logb 10 8 :=
      Real.logb_le_logb_of_le (by norm_num) (by linarith) (by linarith)
    have h8 := logb_ten_eight_lt
    linarith

/-- Witness for the amended C10 at engagement 105. -/
theorem engagement_nonmonotone_witness :
    (100:ℤ) ≤ 105 ∧ (105:ℤ) ≤ 107 ∧ calculate_engagement_score 105 < 99.5 :=
  ⟨by norm_num, by norm_num,
    engagement_nonmonotone.2.2 105 (by norm_num) (by norm_num)⟩

/-! ## Quality-check ordering (C5) -/

/-- C5: `is_high_quality` runs its checks in the fixed source order —
title length, summary length, engagement (non-ArXiv only), spam keywords,
URL validity, Reddit-specific rules — short-circuiting at the first
failure, so the returned reason is exactly the earliest violated rule's
description; on acceptance the reason is the fixed sentinel, and the
reason string is nonempty in every case. -/
theorem is_high_quality_short_circuit (item : Item) :
    is_high_quality item = (match firstFailure item with
      | some r => (false, r)
      | none => (true, passedSentinel)) ∧
    (is_high_quality item).2 ≠ "" := by
  constructor
  · unfold is_high_quality firstFailure qualityRules
    simp only [List.findSome?_cons, List.findSome?_nil]
    unfold ruleTitle ruleSummary ruleEngagement ruleSpam ruleUrl ruleRedditExcluded
      ruleRedditSubstance
    by_cases h1 : (item.title.getD "").length < min_title_length (item.source.getD "")
    · simp [h1]
    · simp only [h1, if_false, if_neg h1]
      by_cases h2 : (item.summary.getD "").length < 50
      · simp [h2]
      · simp only [h2, if_neg h2]
        by_cases h3 : item.source.getD "" ≠ "ArXiv" ∧
            item.engagementScore.getD 0 < min_engagement (item.source.getD "")
        · simp [h3]
        · simp only [if_neg h3]
          cases hspam : spam_keywords.find?
              (fun kw => containsStr
                (lowerStr (item.title.getD "" ++ " " ++ item.summary.getD "")) kw) with
          | some kw => simp [hspam]
          | none =>
            simp only [hspam]
            by_cases h5 : item.url.getD "" = "" ∨
                startsWithStr (item.url.getD "") "http" = false
            · simp [h5]
            · simp only [if_neg h5]
              by_cases h6 : item.source.getD "" = "Reddit"
              · simp only [h6, if_pos h6, ite_true]
                cases hex : extractAfterRSlash (item.url.getD "").toList with
                | some sub =>
                  simp only [hex]
                  by_cases h6a : lowerStr sub ∈ excluded_subreddits
                  · simp [h6a]
                  · by_cases h6b : (item.title.getD "").length < 30 ∧
                        (item.summary.getD "").length < 100
                    · simp [h6a, h6b]
                    · simp [h6a, h6b]
                | none =>
                  simp only [hex]
                  by_cases h6b : (item.title.getD "").length < 30 ∧
                      (item.summary.getD "").length < 100
                  · simp [h6, h6b]
                  · simp [h6, h6b]
              · simp [h6]
  · unfold is_high_quality
    dsimp only
    repeat' split
    all_goals simp [passedSentinel, String.ext_iff, String.data_append]

end LPG
